import Mathlib

/-!
Shallow embedding of the element model, hit-testing, alignment, paint-order,
serialization and pointer-event logic of the interface-mockup editor in
`Main.py` (classes `ElementType`, `AlignmentType`, `CanvasElement`, `Canvas`,
`MainWindow`).  Pixel coordinates, which the program stores as Qt `qreal`
floating-point values, are modelled as exact rationals; the geometric
primitives (`QRectF.contains`, `QRectF.intersects`, `QRectF.left/right/...`)
are translated from their Qt implementations.  Trigonometry in
`Canvas.regular_polygon` is modelled over the reals.
-/

attribute [local semireducible] Rat.add Rat.sub Rat.mul Rat.inv

/-- The `ElementType` enum of `Main.py` (one constructor per member). -/
inductive ElementType
  | POINT
  | LINE
  | STRAIGHT
  | TRIANGLE
  | RECT
  | CIRCLE
  | PENTAGON
  | HEXAGON
  | ARROW
  | TEXT
  | BUTTON
  | INPUT
  | MENU
  | ICON
  | IMAGE
  | LINK
deriving DecidableEq

/-- String value of each `ElementType` member (`ElementType.X.value`). -/
def ElementType.value : ElementType → String
  | .POINT => "point"
  | .LINE => "line"
  | .STRAIGHT => "straight"
  | .TRIANGLE => "triangle"
  | .RECT => "rect"
  | .CIRCLE => "circle"
  | .PENTAGON => "pentagon"
  | .HEXAGON => "hexagon"
  | .ARROW => "arrow"
  | .TEXT => "text"
  | .BUTTON => "button"
  | .INPUT => "input"
  | .MENU => "menu"
  | .ICON => "icon"
  | .IMAGE => "image"
  | .LINK => "link"

/-- The `ElementType(s)` enum constructor: looks a member up by its string
value, `none` when Python would raise `ValueError`. -/
def elementTypeOfValue (s : String) : Option ElementType :=
  if s = "point" then some .POINT
  else if s = "line" then some .LINE
  else if s = "straight" then some .STRAIGHT
  else if s = "triangle" then some .TRIANGLE
  else if s = "rect" then some .RECT
  else if s = "circle" then some .CIRCLE
  else if s = "pentagon" then some .PENTAGON
  else if s = "hexagon" then some .HEXAGON
  else if s = "arrow" then some .ARROW
  else if s = "text" then some .TEXT
  else if s = "button" then some .BUTTON
  else if s = "input" then some .INPUT
  else if s = "menu" then some .MENU
  else if s = "icon" then some .ICON
  else if s = "image" then some .IMAGE
  else if s = "link" then some .LINK
  else none

/-- The `AlignmentType` enum of `Main.py`. -/
inductive AlignmentType
  | LEFT
  | RIGHT
  | TOP
  | BOTTOM
  | CENTER_H
  | CENTER_V
  | CENTER
  | DISTRIBUTE_H
  | DISTRIBUTE_V
deriving DecidableEq

/-- The three `Qt.Align*` flags that `Main.py` stores in a text element's
`data['alignment']` (`Qt.AlignLeft`, `Qt.AlignCenter`, `Qt.AlignRight`). -/
inductive QtAlign
  | alignLeft
  | alignCenter
  | alignRight
deriving DecidableEq

/-- Values stored in a `CanvasElement.data` payload dictionary.  The program
stores numbers, strings, points, point lists, string lists, booleans and
alignment flags there. -/
inductive DValue
  | num (q : ℚ)
  | str (s : String)
  | pt (p : ℚ × ℚ)
  | pts (l : List (ℚ × ℚ))
  | strs (l : List String)
  | flag (b : Bool)
  | align (a : QtAlign)
deriving DecidableEq

/-- A `data` payload: a Python dict modelled as an insertion-ordered
association list. -/
abbrev ElemData := List (String × DValue)

/-- Python dict item assignment `d[k] = v`: replaces the value in place when
the key is present, appends otherwise. -/
def dataSet (d : ElemData) (k : String) (v : DValue) : ElemData :=
  if d.any (fun q => q.1 == k) then
    d.map (fun q => if q.1 == k then (k, v) else q)
  else d ++ [(k, v)]

/-- Python `d.get(k)`: the value at a key, if present. -/
def dataGet (d : ElemData) (k : String) : Option DValue :=
  (d.find? (fun q => q.1 == k)).map Prod.snd

/-- An RGB color with 8-bit channels, the way `Main.py` uses `QColor`
(the alpha channel is never set by the program and `QColor.name()`
serializes only `#rrggbb`). -/
structure QColor where
  r : Fin 256
  g : Fin 256
  b : Fin 256
deriving DecidableEq

/-- Lowercase hexadecimal digit character for a value below 16, as used by
`QColor.name()`. -/
def hexDigitChar (n : ℕ) : Char :=
  if n < 10 then Char.ofNat (48 + n) else Char.ofNat (87 + n)

/-- Value of a hexadecimal digit character (`0-9`, `a-f`, `A-F`), as accepted
by the `#rrggbb` form of the `QColor` name parser. -/
def hexDigitVal (c : Char) : Option ℕ :=
  if 48 ≤ c.toNat ∧ c.toNat ≤ 57 then some (c.toNat - 48)
  else if 97 ≤ c.toNat ∧ c.toNat ≤ 102 then some (c.toNat - 87)
  else if 65 ≤ c.toNat ∧ c.toNat ≤ 70 then some (c.toNat - 55)
  else none

/-- Two hex digit characters combined into one 8-bit channel value. -/
def hexPair (c1 c2 : Char) : Option (Fin 256) :=
  match hexDigitVal c1, hexDigitVal c2 with
  | some h, some l => if hb : 16 * h + l < 256 then some ⟨16 * h + l, hb⟩ else none
  | _, _ => none

/-- Two-digit lowercase hex rendering of an 8-bit channel value. -/
def toHex2 (n : Fin 256) : String :=
  String.mk [hexDigitChar (n.val / 16), hexDigitChar (n.val % 16)]

/-- `QColor.name()`: the `#rrggbb` lowercase hex name of a color. -/
def QColor.name (c : QColor) : String :=
  "#" ++ toHex2 c.r ++ toHex2 c.g ++ toHex2 c.b

/-- The `#rrggbb` branch of the `QColor` name parser, on a character list. -/
def qcolorFromChars : List Char → Option QColor
  | ['#', r1, r2, g1, g2, b1, b2] =>
    match hexPair r1 r2, hexPair g1 g2, hexPair b1 b2 with
    | some r, some g, some b => some ⟨r, g, b⟩
    | _, _, _ => none
  | _ => none

/-- The `QColor(name)` constructor restricted to the `#rrggbb` name form,
which is the only form `Main.py` ever produces (`QColor.name()` output and
the literal `'#000000'`).  An unparsable name yields `none` where Qt would
yield an invalid color. -/
def qcolorFromName (s : String) : Option QColor :=
  qcolorFromChars s.data

/-- The `CanvasElement` record of `Main.py`: type, position, size, selection
flag, color, z-order and free-form data payload. -/
structure CanvasElement where
  element_type : ElementType
  position : ℚ × ℚ
  size : ℚ × ℚ
  selected : Bool
  color : QColor
  z_value : Int
  data : ElemData
deriving DecidableEq

/-- `CanvasElement.__init__`: a fresh element of a given type at a given
position, with default size `(100, 100)`, unselected, default color
`QColor(150, 0, 150)`, z-value `0` and empty data payload. -/
def mkElement (t : ElementType) (p : ℚ × ℚ) : CanvasElement :=
  { element_type := t
    position := p
    size := (100, 100)
    selected := false
    color := ⟨150, 0, 150⟩
    z_value := 0
    data := [] }

/-- The dictionary produced by `CanvasElement.to_dict` / consumed by
`CanvasElement.from_dict`.  `z_value` and `data` are optional because
`from_dict` reads them with defaults `0` and `{}`. -/
structure ElemDict where
  etype : String
  position : ℚ × ℚ
  size : ℚ × ℚ
  color : String
  z_value : Option Int
  data : Option ElemData
deriving DecidableEq

/-- `CanvasElement.to_dict`: serializes type value, position, size,
`color.name()`, z-value and data payload. -/
def CanvasElement.to_dict (e : CanvasElement) : ElemDict :=
  { etype := e.element_type.value
    position := e.position
    size := e.size
    color := e.color.name
    z_value := some e.z_value
    data := some e.data }

/-- `CanvasElement.from_dict`: rebuilds an element from a dictionary; the
type string goes through the `ElementType` constructor (`none` models the
`ValueError` on an unknown value) and the color name through `QColor(name)`
(`none` models an unparsable name). -/
def CanvasElement.from_dict (d : ElemDict) : Option CanvasElement :=
  match elementTypeOfValue d.etype, qcolorFromName d.color with
  | some t, some col =>
    some { mkElement t d.position with
            size := d.size
            color := col
            z_value := d.z_value.getD 0
            data := d.data.getD [] }
  | _, _ => none

theorem elementTypeOfValue_value (t : ElementType) :
    elementTypeOfValue t.value = some t := by
  cases t <;> rfl

theorem hexDigitVal_hexDigitChar (n : ℕ) (h : n < 16) :
    hexDigitVal (hexDigitChar n) = some n := by
  interval_cases n <;> rfl

theorem hexPair_split (n : Fin 256) :
    hexPair (hexDigitChar (n.val / 16)) (hexDigitChar (n.val % 16)) = some n := by
  have h1 : n.val / 16 < 16 := by omega
  have h2 : n.val % 16 < 16 := Nat.mod_lt _ (by norm_num)
  rw [hexPair, hexDigitVal_hexDigitChar _ h1, hexDigitVal_hexDigitChar _ h2]
  have h3 : 16 * (n.val / 16) + n.val % 16 = n.val := by omega
  simp only [h3]
  rw [dif_pos n.isLt]

theorem qcolorName_data (c : QColor) :
    c.name.data =
      ['#', hexDigitChar (c.r.val / 16), hexDigitChar (c.r.val % 16),
       hexDigitChar (c.g.val / 16), hexDigitChar (c.g.val % 16),
       hexDigitChar (c.b.val / 16), hexDigitChar (c.b.val % 16)] := by
  simp [QColor.name, toHex2, String.data_append]

theorem qcolorFromName_name (c : QColor) :
    qcolorFromName c.name = some c := by
  rw [qcolorFromName, qcolorName_data, qcolorFromChars,
    hexPair_split c.r, hexPair_split c.g, hexPair_split c.b]

/-- Claim C4: serialization round-trip.  For every element `e`,
`from_dict (to_dict e)` succeeds and reconstructs an element with the same
element type, position, size, color, z-order and data payload as `e`. -/
theorem c4_serialization_round_trip (e : CanvasElement) :
    ∃ e2 : CanvasElement,
      CanvasElement.from_dict (CanvasElement.to_dict e) = some e2 ∧
      e2.element_type = e.element_type ∧
      e2.position = e.position ∧
      e2.size = e.size ∧
      e2.color = e.color ∧
      e2.z_value = e.z_value ∧
      e2.data = e.data := by
  refine ⟨{ e with selected := false }, ?_, rfl, rfl, rfl, rfl, rfl, rfl⟩
  rw [CanvasElement.from_dict]
  simp only [CanvasElement.to_dict, elementTypeOfValue_value, qcolorFromName_name]
  simp [mkElement]

/-- A `QRectF`: floating-point rectangle given by top-left corner and
(width, height), either of which Qt allows to be negative. -/
structure RectF where
  x : ℚ
  y : ℚ
  w : ℚ
  h : ℚ
deriving DecidableEq

/-- `CanvasElement.get_bounds`: `QRectF(self.position, self.size)`. -/
def CanvasElement.get_bounds (e : CanvasElement) : RectF :=
  ⟨e.position.1, e.position.2, e.size.1, e.size.2⟩

/-- `QRectF.contains(QPointF)` as implemented by Qt: a negative width or
height is normalized, a null (zero-width or zero-height) rectangle contains
no point, and edge points are contained. -/
def RectF.containsPt (r : RectF) (p : ℚ × ℚ) : Bool :=
  let l := if r.w < 0 then r.x + r.w else r.x
  let rr := if r.w < 0 then r.x else r.x + r.w
  if l == rr then false
  else if p.1 < l || p.1 > rr then false
  else
    let t := if r.h < 0 then r.y + r.h else r.y
    let bb := if r.h < 0 then r.y else r.y + r.h
    if t == bb then false
    else if p.2 < t || p.2 > bb then false
    else true

/-- `CanvasElement.contains_point`: bounding-rectangle membership. -/
def CanvasElement.contains_point (e : CanvasElement) (p : ℚ × ℚ) : Bool :=
  e.get_bounds.containsPt p

/-- `QRectF.intersects` as implemented by Qt: both rectangles normalized,
empty rectangles intersect nothing, rectangles that only share an edge do
not intersect. -/
def RectF.intersects (r s : RectF) : Bool :=
  let l1 := if r.w < 0 then r.x + r.w else r.x
  let r1 := if r.w < 0 then r.x else r.x + r.w
  if l1 == r1 then false
  else
    let l2 := if s.w < 0 then s.x + s.w else s.x
    let r2 := if s.w < 0 then s.x else s.x + s.w
    if l2 == r2 then false
    else if l1 ≥ r2 || l2 ≥ r1 then false
    else
      let t1 := if r.h < 0 then r.y + r.h else r.y
      let b1 := if r.h < 0 then r.y else r.y + r.h
      if t1 == b1 then false
      else
        let t2 := if s.h < 0 then s.y + s.h else s.y
        let b2 := if s.h < 0 then s.y else s.y + s.h
        if t2 == b2 then false
        else if t1 ≥ b2 || t2 ≥ b1 then false
        else true

/-- `Canvas.get_element_at`: walks the element list in reverse (top-most
first) and returns the first element whose bounds contain the point. -/
def get_element_at (elements : List CanvasElement) (p : ℚ × ℚ) : Option CanvasElement :=
  elements.reverse.find? (fun e => e.contains_point p)

/-- `Canvas.get_elements_in_rect`: all elements whose bounds intersect the
rectangle, in list order. -/
def get_elements_in_rect (elements : List CanvasElement) (rect : RectF) : List CanvasElement :=
  elements.filter (fun e => rect.intersects e.get_bounds)

theorem find_reverse_some {α : Type} (p : α → Bool) (l : List α) (a : α)
    (h : l.reverse.find? p = some a) :
    p a = true ∧ ∃ l1 l2, l = l1 ++ a :: l2 ∧ ∀ x ∈ l2, p x = false := by
  induction l using List.reverseRecOn with
  | nil => simp at h
  | append_singleton l' b ih =>
    rw [List.reverse_append, List.reverse_singleton, List.singleton_append] at h
    by_cases hb : p b
    · rw [List.find?_cons_of_pos _ hb] at h
      obtain rfl : b = a := by simpa using h
      exact ⟨hb, l', [], rfl, by simp⟩
    · rw [List.find?_cons_of_neg _ (by simpa using hb)] at h
      obtain ⟨hpa, l1, l2, rfl, hl2⟩ := ih h
      refine ⟨hpa, l1, l2 ++ [b], by simp, ?_⟩
      intro x hx
      rcases List.mem_append.1 hx with hx | hx
      · exact hl2 x hx
      · simpa using by
          obtain rfl : x = b := by simpa using hx
          simpa using hb

/-- Claim C6: hit-testing.  `get_element_at` returns `none` exactly when no
element's bounding rectangle contains the point, and when it returns an
element, that element contains the point and no element occurring later in
the canvas's element list contains it (so it is the latest hit). -/
theorem c6_get_element_at_latest_hit (l : List CanvasElement) (p : ℚ × ℚ) :
    (get_element_at l p = none ↔ ∀ e ∈ l, e.contains_point p = false) ∧
    (∀ e, get_element_at l p = some e →
      e.contains_point p = true ∧
      ∃ l1 l2, l = l1 ++ e :: l2 ∧ ∀ x ∈ l2, x.contains_point p = false) := by
  constructor
  · rw [get_element_at, List.find?_eq_none]
    constructor
    · intro h e he
      simpa using h e (List.mem_reverse.2 he)
    · intro h e he
      simpa using h e (List.mem_reverse.1 he)
  · intro e he
    exact find_reverse_some _ l e he

/-- Witness for C6 at a concrete input: two overlapping rectangles, the
later one is returned, contains the point, and is last in the list. -/
theorem c6_get_element_at_latest_hit_witness :
    (get_element_at
        [mkElement ElementType.RECT (0, 0), mkElement ElementType.CIRCLE (5, 5)]
        (20, 20) = some (mkElement ElementType.CIRCLE (5, 5))) ∧
    ((mkElement ElementType.CIRCLE (5, 5)).contains_point (20, 20) = true ∧
      ∃ l1 l2,
        [mkElement ElementType.RECT (0, 0), mkElement ElementType.CIRCLE (5, 5)]
          = l1 ++ mkElement ElementType.CIRCLE (5, 5) :: l2 ∧
        ∀ x ∈ l2, x.contains_point (20, 20) = false) :=
  ⟨by decide,
    (c6_get_element_at_latest_hit
        [mkElement ElementType.RECT (0, 0), mkElement ElementType.CIRCLE (5, 5)]
        (20, 20)).2
      (mkElement ElementType.CIRCLE (5, 5)) (by decide)⟩

/-- The sort key relation of `Canvas.paintEvent`'s
`sorted(self.elements, key=lambda e: e.z_value)`: ordering by z-value. -/
def zOrderRel (a b : CanvasElement) : Prop := a.z_value ≤ b.z_value

instance : DecidableRel zOrderRel := fun a b => Int.decLe a.z_value b.z_value

instance : IsTotal CanvasElement zOrderRel := ⟨fun a b => Int.le_total a.z_value b.z_value⟩

instance : IsTrans CanvasElement zOrderRel := ⟨fun _ _ _ hab hbc => le_trans hab hbc⟩

/-- The paint order of `Canvas.paintEvent`: Python's `sorted` is the stable
ascending sort by the key, realized here by insertion sort with the
non-strict z-value comparison (extensionally the same stable sort). -/
def paintOrder (elements : List CanvasElement) : List CanvasElement :=
  List.insertionSort zOrderRel elements

theorem filter_orderedInsert_hit (a : CanvasElement) (l : List CanvasElement)
    (z : Int) (ha : a.z_value = z) :
    (l.orderedInsert zOrderRel a).filter (fun e => e.z_value == z)
      = a :: l.filter (fun e => e.z_value == z) := by
  rw [List.orderedInsert_eq_take_drop, List.filter_append]
  have htake : (l.takeWhile fun b => ¬ zOrderRel a b).filter
      (fun e => e.z_value == z) = [] := by
    rw [List.filter_eq_nil_iff]
    intro x hx
    have hd := List.mem_takeWhile_imp hx
    simp only [decide_eq_true_eq] at hd
    simp only [zOrderRel, ha, not_le] at hd
    simp only [beq_iff_eq]
    omega
  rw [htake, List.nil_append, List.filter_cons]
  have hpa : (a.z_value == z) = true := by simpa using ha
  rw [if_pos (by simpa using hpa)]
  congr 1
  have hsplit := List.takeWhile_append_dropWhile
    (fun b => decide (¬ zOrderRel a b)) l
  conv_rhs => rw [← hsplit]
  rw [List.filter_append, htake, List.nil_append]

theorem filter_orderedInsert_miss (a : CanvasElement) (l : List CanvasElement)
    (z : Int) (ha : a.z_value ≠ z) :
    (l.orderedInsert zOrderRel a).filter (fun e => e.z_value == z)
      = l.filter (fun e => e.z_value == z) := by
  rw [List.orderedInsert_eq_take_drop, List.filter_append, List.filter_cons]
  rw [if_neg (by simpa using ha)]
  have hsplit := List.takeWhile_append_dropWhile
    (fun b => decide (¬ zOrderRel a b)) l
  conv_rhs => rw [← hsplit]
  rw [List.filter_append]

theorem filter_paintOrder (l : List CanvasElement) (z : Int) :
    (paintOrder l).filter (fun e => e.z_value == z)
      = l.filter (fun e => e.z_value == z) := by
  induction l with
  | nil => rfl
  | cons a l ih =>
    show ((List.insertionSort zOrderRel l).orderedInsert zOrderRel a).filter
        (fun e => e.z_value == z) = _
    by_cases ha : a.z_value = z
    · rw [filter_orderedInsert_hit a _ z ha, List.filter_cons,
        if_pos (by simpa using ha)]
      exact congrArg _ ih
    · rw [filter_orderedInsert_miss a _ z ha, List.filter_cons,
        if_neg (by simpa using ha)]
      exact ih

/-- Claim C5: paint order.  The repaint order is ascending in z-value, any
two elements with equal z-value keep the relative order they have in the
canvas's element list (which is their creation order, since `add_element`
appends), and exactly the listed elements are drawn. -/
theorem c5_paint_order_stable_by_z (l : List CanvasElement) :
    (paintOrder l).Pairwise (fun a b => a.z_value ≤ b.z_value) ∧
    (∀ z : Int, (paintOrder l).filter (fun e => e.z_value == z)
        = l.filter (fun e => e.z_value == z)) ∧
    (paintOrder l).Perm l :=
  ⟨List.sorted_insertionSort zOrderRel l,
    fun z => filter_paintOrder l z,
    List.perm_insertionSort zOrderRel l⟩

/-- `QRectF.left()` of an element's bounds: the stored x coordinate. -/
def rectLeft (e : CanvasElement) : ℚ := e.position.1

/-- `QRectF.right()` of an element's bounds: `x + width`. -/
def rectRight (e : CanvasElement) : ℚ := e.position.1 + e.size.1

/-- `QRectF.top()` of an element's bounds: the stored y coordinate. -/
def rectTop (e : CanvasElement) : ℚ := e.position.2

/-- `QRectF.bottom()` of an element's bounds: `y + height`. -/
def rectBottom (e : CanvasElement) : ℚ := e.position.2 + e.size.2

/-- `QRectF.center().x()` of an element's bounds: `x + width / 2`. -/
def rectCenterX (e : CanvasElement) : ℚ := e.position.1 + e.size.1 / 2

/-- `QRectF.center().y()` of an element's bounds: `y + height / 2`. -/
def rectCenterY (e : CanvasElement) : ℚ := e.position.2 + e.size.2 / 2

/-- Python `min` over a nonempty list (every caller in `align_elements`
guards nonemptiness through the `len(elements) < 2` early return). -/
def qminimum : List ℚ → ℚ
  | [] => 0
  | x :: xs => xs.foldl min x

/-- Python `max` over a nonempty list. -/
def qmaximum : List ℚ → ℚ
  | [] => 0
  | x :: xs => xs.foldl max x

/-- `element.position.setX(v)`: in-place update of the x coordinate. -/
def setPosX (e : CanvasElement) (v : ℚ) : CanvasElement :=
  { e with position := (v, e.position.2) }

/-- `element.position.setY(v)`: in-place update of the y coordinate. -/
def setPosY (e : CanvasElement) (v : ℚ) : CanvasElement :=
  { e with position := (e.position.1, v) }

instance pairByXRel :
    DecidableRel (fun p q : ℕ × CanvasElement => p.2.position.1 ≤ q.2.position.1) :=
  fun p q => inferInstanceAs (Decidable (p.2.position.1 ≤ q.2.position.1))

instance pairByYRel :
    DecidableRel (fun p q : ℕ × CanvasElement => p.2.position.2 ≤ q.2.position.2) :=
  fun p q => inferInstanceAs (Decidable (p.2.position.2 ≤ q.2.position.2))

/-- The `DISTRIBUTE_H` branch of `Canvas.align_elements`.  The in-place
Python mutation (each object of `sorted(elements, key=x)` has its x set to
`xs[0] + i * step`) is modelled by indexing the list, stably sorting the
indexed pairs by x, and writing each computed x back to the element at its
original index; the returned list keeps the original order, as the canvas's
list does. -/
def distributeH (l : List CanvasElement) : List CanvasElement :=
  let xs := List.insertionSort (fun a b : ℚ => a ≤ b) (l.map rectLeft)
  if 2 < xs.length then
    let step := (xs.getLastD 0 - xs.headD 0) / ((xs.length : ℚ) - 1)
    let sortedPairs := List.insertionSort
      (fun p q : ℕ × CanvasElement => p.2.position.1 ≤ q.2.position.1) l.enum
    let targets := sortedPairs.enum.map
      (fun q => (q.2.1, xs.headD 0 + (q.1 : ℚ) * step))
    l.enum.map (fun q =>
      match targets.lookup q.1 with
      | some nx => setPosX q.2 nx
      | none => q.2)
  else l

/-- The `DISTRIBUTE_V` branch of `Canvas.align_elements`, symmetric to
`distributeH` with tops, y coordinates and `setY`. -/
def distributeV (l : List CanvasElement) : List CanvasElement :=
  let ys := List.insertionSort (fun a b : ℚ => a ≤ b) (l.map rectTop)
  if 2 < ys.length then
    let step := (ys.getLastD 0 - ys.headD 0) / ((ys.length : ℚ) - 1)
    let sortedPairs := List.insertionSort
      (fun p q : ℕ × CanvasElement => p.2.position.2 ≤ q.2.position.2) l.enum
    let targets := sortedPairs.enum.map
      (fun q => (q.2.1, ys.headD 0 + (q.1 : ℚ) * step))
    l.enum.map (fun q =>
      match targets.lookup q.1 with
      | some ny => setPosY q.2 ny
      | none => q.2)
  else l

/-- `Canvas.align_elements`: returns the list unchanged for fewer than two
elements, otherwise repositions every element according to the alignment
rule, with all extremal/average coordinates computed from the original
bounds (`bounds_list` is computed before any mutation). -/
def align_elements (l : List CanvasElement) (t : AlignmentType) : List CanvasElement :=
  if l.length < 2 then l
  else
    match t with
    | .LEFT => l.map (fun e => setPosX e (qminimum (l.map rectLeft)))
    | .RIGHT => l.map (fun e => setPosX e (qmaximum (l.map rectRight) - e.size.1))
    | .TOP => l.map (fun e => setPosY e (qminimum (l.map rectTop)))
    | .BOTTOM => l.map (fun e => setPosY e (qmaximum (l.map rectBottom) - e.size.2))
    | .CENTER_H => l.map (fun e =>
        setPosX e ((l.map rectCenterX).sum / (l.length : ℚ) - e.size.1 / 2))
    | .CENTER_V => l.map (fun e =>
        setPosY e ((l.map rectCenterY).sum / (l.length : ℚ) - e.size.2 / 2))
    | .CENTER => l.map (fun e =>
        { e with position := ((l.map rectCenterX).sum / (l.length : ℚ) - e.size.1 / 2,
                              (l.map rectCenterY).sum / (l.length : ℚ) - e.size.2 / 2) })
    | .DISTRIBUTE_H => distributeH l
    | .DISTRIBUTE_V => distributeV l

theorem map_enum_lookup_invariant {β : Type} (f : CanvasElement → β)
    (upd : CanvasElement → ℚ → CanvasElement)
    (hupd : ∀ (e : CanvasElement) (v : ℚ), f (upd e v) = f e)
    (targets : List (ℕ × ℚ)) (l : List CanvasElement) :
    (l.enum.map (fun q : ℕ × CanvasElement =>
      match targets.lookup q.1 with
      | some nx => upd q.2 nx
      | none => q.2)).map f = l.map f := by
  rw [List.map_map]
  have hcong : ∀ q ∈ l.enum,
      (f ∘ fun q : ℕ × CanvasElement =>
        match targets.lookup q.1 with
        | some nx => upd q.2 nx
        | none => q.2) q = (f ∘ Prod.snd) q := by
    intro q _
    simp only [Function.comp]
    cases targets.lookup q.1 with
    | none => rfl
    | some nx => exact hupd q.2 nx
  rw [List.map_congr_left hcong, ← List.map_map, List.enum_map_snd]

theorem distributeH_map_invariant {β : Type} (f : CanvasElement → β)
    (hP : ∀ (e : CanvasElement) (p : ℚ × ℚ), f { e with position := p } = f e)
    (l : List CanvasElement) : (distributeH l).map f = l.map f := by
  simp only [distributeH]
  split
  · exact map_enum_lookup_invariant f setPosX (fun e v => hP e _) _ l
  · rfl

theorem distributeV_map_invariant {β : Type} (f : CanvasElement → β)
    (hP : ∀ (e : CanvasElement) (p : ℚ × ℚ), f { e with position := p } = f e)
    (l : List CanvasElement) : (distributeV l).map f = l.map f := by
  simp only [distributeV]
  split
  · exact map_enum_lookup_invariant f setPosY (fun e v => hP e _) _ l
  · rfl

theorem align_elements_map_invariant {β : Type} (f : CanvasElement → β)
    (hP : ∀ (e : CanvasElement) (p : ℚ × ℚ), f { e with position := p } = f e)
    (l : List CanvasElement) (t : AlignmentType) :
    (align_elements l t).map f = l.map f := by
  cases t <;> simp only [align_elements] <;> split <;>
    first
      | rfl
      | exact distributeH_map_invariant f hP l
      | exact distributeV_map_invariant f hP l
      | (rw [List.map_map]; exact List.map_congr_left (fun e _ => hP e _))

/-- The non-position components of an element: type, size, selection flag,
color, z-value and data payload. -/
def elemShape (e : CanvasElement) :
    ElementType × (ℚ × ℚ) × Bool × QColor × Int × ElemData :=
  (e.element_type, e.size, e.selected, e.color, e.z_value, e.data)

/-- Claim C9: every `align_elements` call, for every alignment or
distribution rule, leaves the size of every element unchanged, and more
generally modifies nothing but positions (type, size, selection flag,
color, z-value and data payload are all untouched). -/
theorem c9_align_elements_frame (l : List CanvasElement) (t : AlignmentType) :
    (align_elements l t).map CanvasElement.size = l.map CanvasElement.size ∧
    (align_elements l t).map elemShape = l.map elemShape :=
  ⟨align_elements_map_invariant CanvasElement.size (fun _ _ => rfl) l t,
    align_elements_map_invariant elemShape (fun _ _ => rfl) l t⟩

/-- Claim C3: for at least two elements, LEFT alignment sets every x to the
minimum left edge of the original bounds, RIGHT sets x to the maximum right
edge minus the element's width, TOP sets y to the minimum top edge, BOTTOM
sets y to the maximum bottom edge minus the element's height, and in every
case the other coordinate of each element is unchanged. -/
theorem c3_align_edge_rules (l : List CanvasElement) (h : 2 ≤ l.length) :
    (align_elements l AlignmentType.LEFT).map CanvasElement.position
      = l.map (fun e => (qminimum (l.map rectLeft), e.position.2)) ∧
    (align_elements l AlignmentType.RIGHT).map CanvasElement.position
      = l.map (fun e => (qmaximum (l.map rectRight) - e.size.1, e.position.2)) ∧
    (align_elements l AlignmentType.TOP).map CanvasElement.position
      = l.map (fun e => (e.position.1, qminimum (l.map rectTop))) ∧
    (align_elements l AlignmentType.BOTTOM).map CanvasElement.position
      = l.map (fun e => (e.position.1, qmaximum (l.map rectBottom) - e.size.2)) := by
  have hg : ¬ l.length < 2 := by omega
  refine ⟨?_, ?_, ?_, ?_⟩ <;>
    simp [align_elements, hg, setPosX, setPosY, List.map_map, Function.comp]

/-- Witness for C3 at a concrete two-element input. -/
theorem c3_align_edge_rules_witness :
    2 ≤ ([mkElement ElementType.RECT (4, 7),
          { mkElement ElementType.CIRCLE (10, 20) with size := (30, 40) }] :
        List CanvasElement).length ∧
    ((align_elements
        [mkElement ElementType.RECT (4, 7),
         { mkElement ElementType.CIRCLE (10, 20) with size := (30, 40) }]
        AlignmentType.LEFT).map CanvasElement.position
      = List.map (fun e => (qminimum (List.map rectLeft
          [mkElement ElementType.RECT (4, 7),
           { mkElement ElementType.CIRCLE (10, 20) with size := (30, 40) }]),
          e.position.2))
        [mkElement ElementType.RECT (4, 7),
         { mkElement ElementType.CIRCLE (10, 20) with size := (30, 40) }] ∧
      (align_elements
        [mkElement ElementType.RECT (4, 7),
         { mkElement ElementType.CIRCLE (10, 20) with size := (30, 40) }]
        AlignmentType.RIGHT).map CanvasElement.position
      = List.map (fun e => (qmaximum (List.map rectRight
          [mkElement ElementType.RECT (4, 7),
           { mkElement ElementType.CIRCLE (10, 20) with size := (30, 40) }])
            - e.size.1, e.position.2))
        [mkElement ElementType.RECT (4, 7),
         { mkElement ElementType.CIRCLE (10, 20) with size := (30, 40) }] ∧
      (align_elements
        [mkElement ElementType.RECT (4, 7),
         { mkElement ElementType.CIRCLE (10, 20) with size := (30, 40) }]
        AlignmentType.TOP).map CanvasElement.position
      = List.map (fun e => (e.position.1, qminimum (List.map rectTop
          [mkElement ElementType.RECT (4, 7),
           { mkElement ElementType.CIRCLE (10, 20) with size := (30, 40) }])))
        [mkElement ElementType.RECT (4, 7),
         { mkElement ElementType.CIRCLE (10, 20) with size := (30, 40) }] ∧
      (align_elements
        [mkElement ElementType.RECT (4, 7),
         { mkElement ElementType.CIRCLE (10, 20) with size := (30, 40) }]
        AlignmentType.BOTTOM).map CanvasElement.position
      = List.map (fun e => (e.position.1, qmaximum (List.map rectBottom
          [mkElement ElementType.RECT (4, 7),
           { mkElement ElementType.CIRCLE (10, 20) with size := (30, 40) }])
            - e.size.2))
        [mkElement ElementType.RECT (4, 7),
         { mkElement ElementType.CIRCLE (10, 20) with size := (30, 40) }]) :=
  ⟨by decide,
    c3_align_edge_rules
      [mkElement ElementType.RECT (4, 7),
       { mkElement ElementType.CIRCLE (10, 20) with size := (30, 40) }]
      (by decide)⟩

/-- `CanvasElement.move`: shifts the position by a delta. -/
def CanvasElement.move (e : CanvasElement) (delta : ℚ × ℚ) : CanvasElement :=
  { e with position := (e.position.1 + delta.1, e.position.2 + delta.2) }

/-- `CanvasElement.set_size`: replaces the size. -/
def CanvasElement.set_size (e : CanvasElement) (s : ℚ × ℚ) : CanvasElement :=
  { e with size := s }

/-- The accepted result of one of the per-type editing dialogs of
`Canvas.edit_element` (the values read back from the dialog widgets). -/
inductive EditResult
  | textEdit (text family : String) (fsize : ℚ) (alignSel : QtAlign)
  | buttonEdit (text : String)
  | inputEdit (placeholder : String)
  | menuEdit (itemsText : String)
  | iconEdit (iconType : String)
deriving DecidableEq

/-- The menu-items parsing of `Canvas.edit_element`:
`[line.strip() for line in text.split(chr(10)) if line.strip()]`. -/
def splitItems (text : String) : List String :=
  ((text.splitOn ("\n")).map String.trim).filter (fun s => !s.isEmpty)

/-- `Canvas.edit_element` with an accepted dialog: updates the data payload
of the matching element type (text/button/input/menu/icon); any other
combination of element type and dialog leaves the element unchanged. -/
def edit_element (e : CanvasElement) (res : EditResult) : CanvasElement :=
  match e.element_type, res with
  | ElementType.TEXT, EditResult.textEdit t fam fs a =>
    { e with data := dataSet (dataSet (dataSet (dataSet e.data ("text") (.str t))
        ("font_family") (.str fam)) ("font_size") (.num fs)) ("alignment") (.align a) }
  | ElementType.BUTTON, EditResult.buttonEdit t =>
    { e with data := dataSet e.data ("text") (.str t) }
  | ElementType.INPUT, EditResult.inputEdit p =>
    { e with data := dataSet e.data ("placeholder") (.str p) }
  | ElementType.MENU, EditResult.menuEdit txt =>
    { e with data := dataSet e.data ("items") (.strs (splitItems txt)) }
  | ElementType.ICON, EditResult.iconEdit it =>
    { e with data := dataSet e.data ("icon_type") (.str it) }
  | _, _ => e

/-- `Canvas.choose_color`: when the picked color is valid, sets the
element's color and, for a text element, also its `data['color']` name. -/
def choose_color (e : CanvasElement) (picked : QColor) (valid : Bool) : CanvasElement :=
  if valid then
    let e1 := { e with color := picked }
    if e.element_type = ElementType.TEXT then
      { e1 with data := dataSet e1.data ("color") (.str picked.name) }
    else e1
  else e

/-- The per-element body of `MainWindow.create_link_dialog`'s accept loop:
converts the element into a LINK to the chosen target canvas. -/
def make_link (e : CanvasElement) (target : String) (anim : Bool) : CanvasElement :=
  { e with element_type := ElementType.LINK
           data := dataSet (dataSet e.data ("target_canvas") (.str target))
             ("animate") (.flag anim)
           size := (30, 30) }

/-- One element-mutating operation of the program: move (drag), resize,
an accepted edit dialog, a color choice, or link conversion. -/
inductive ElemOp
  | moveBy (delta : ℚ × ℚ)
  | resize (s : ℚ × ℚ)
  | edit (res : EditResult)
  | pickColor (c : QColor) (valid : Bool)
  | toLink (target : String) (anim : Bool)
deriving DecidableEq

/-- Dispatch of an element-mutating operation to its source function. -/
def applyElemOp (e : CanvasElement) : ElemOp → CanvasElement
  | .moveBy d => e.move d
  | .resize s => e.set_size s
  | .edit res => edit_element e res
  | .pickColor c v => choose_color e c v
  | .toLink t a => make_link e t a

/-- Claim C7: element type is immutable under every element-mutating
operation (move, resize, edit dialogs, color change) except link
conversion, which sets it to LINK; alignment and distribution also never
change any element's type. -/
theorem c7_element_type_immutable (e : CanvasElement) (op : ElemOp)
    (l : List CanvasElement) (t : AlignmentType) :
    ((applyElemOp e op).element_type =
      match op with
      | ElemOp.toLink _ _ => ElementType.LINK
      | _ => e.element_type) ∧
    (align_elements l t).map CanvasElement.element_type
      = l.map CanvasElement.element_type := by
  constructor
  · cases op with
    | moveBy d => rfl
    | resize s => rfl
    | edit res =>
      show (edit_element e res).element_type = e.element_type
      cases res <;> cases het : e.element_type <;> simp [edit_element, het]
    | pickColor c v =>
      show (choose_color e c v).element_type = e.element_type
      rw [choose_color]
      split
      · split <;> rfl
      · rfl
    | toLink t a => rfl
  · exact align_elements_map_invariant CanvasElement.element_type (fun _ _ => rfl) l t


/-- `Canvas.regular_polygon`: vertex `i` of a regular `sides`-gon sits at
angle `2*pi*i/sides - pi/2` on the circle of radius `size / 2` around the
center. -/
noncomputable def regular_polygon (center : ℝ × ℝ) (size : ℝ) (sides : ℕ) :
    List (ℝ × ℝ) :=
  (List.range sides).map (fun (i : ℕ) =>
    (center.1 + size / 2 * Real.cos (2 * Real.pi * (i : ℝ) / (sides : ℝ) - Real.pi / 2),
     center.2 + size / 2 * Real.sin (2 * Real.pi * (i : ℝ) / (sides : ℝ) - Real.pi / 2)))

/-- Euclidean distance between two points of the plane. -/
noncomputable def ptDist (p q : ℝ × ℝ) : ℝ :=
  Real.sqrt ((p.1 - q.1) ^ 2 + (p.2 - q.2) ^ 2)

theorem regular_polygon_length (center : ℝ × ℝ) (size : ℝ) (sides : ℕ) :
    (regular_polygon center size sides).length = sides := by
  simp only [regular_polygon, List.length_map, List.length_range]

/-- Counterexample to C8 as stated: the claim quantifies over every size
and asserts each vertex lies at distance `size / 2` from the center, but
for the negative size `-2` (one side, center the origin) the single vertex
is `(0, 1)`, at distance `1`, while `size / 2 = -1`. -/
theorem c8_counterexample_negative_size :
    (regular_polygon (0, 0) (-2) 1).headD (0, 0) = ((0 : ℝ), (1 : ℝ)) ∧
    ptDist ((0 : ℝ), (1 : ℝ)) (0, 0) = 1 ∧
    ((1 : ℝ) ≠ (-2) / 2) := by
  refine ⟨?_, ?_, by norm_num⟩
  · simp only [regular_polygon, List.range_succ, List.range_zero, List.nil_append, List.map_cons, List.map_nil,
      List.headD_cons]
    have hang : 2 * Real.pi * ((0 : ℕ) : ℝ) / ((1 : ℕ) : ℝ) - Real.pi / 2
        = -(Real.pi / 2) := by
      push_cast
      ring
    rw [hang, Real.cos_neg, Real.sin_neg, Real.cos_pi_div_two, Real.sin_pi_div_two]
    norm_num
  · rw [ptDist]
    norm_num

/-- Claim C8 (amended): `regular_polygon` returns exactly `sides` vertices,
vertex `i` is the center plus `(size/2) * (cos angle, sin angle)` with
`angle = 2*pi*i/sides - pi/2`, and for a nonnegative size every vertex lies
at distance `size / 2` from the center. -/
theorem c8_regular_polygon_vertices (center : ℝ × ℝ) (size : ℝ) (sides : ℕ)
    (hn : 0 < sides) :
    (regular_polygon center size sides).length = sides ∧
    (∀ i (hi : i < sides),
      (regular_polygon center size sides).get
          ⟨i, by rw [regular_polygon_length]; exact hi⟩ =
        (center.1 + size / 2 * Real.cos (2 * Real.pi * i / sides - Real.pi / 2),
         center.2 + size / 2 * Real.sin (2 * Real.pi * i / sides - Real.pi / 2))) ∧
    (0 ≤ size → ∀ p ∈ regular_polygon center size sides, ptDist p center = size / 2) := by
  refine ⟨regular_polygon_length center size sides, ?_, ?_⟩
  · intro i hi
    simp only [regular_polygon, List.get_eq_getElem, List.getElem_map,
      List.getElem_range]
  · intro hs p hp
    simp only [regular_polygon, List.mem_map, List.mem_range] at hp
    obtain ⟨i, _, rfl⟩ := hp
    rw [ptDist]
    have h1 : center.1 + size / 2 * Real.cos (2 * Real.pi * i / sides - Real.pi / 2)
        - center.1 = size / 2 * Real.cos (2 * Real.pi * i / sides - Real.pi / 2) := by
      ring
    have h2 : center.2 + size / 2 * Real.sin (2 * Real.pi * i / sides - Real.pi / 2)
        - center.2 = size / 2 * Real.sin (2 * Real.pi * i / sides - Real.pi / 2) := by
      ring
    rw [h1, h2]
    have h3 : (size / 2 * Real.cos (2 * Real.pi * i / sides - Real.pi / 2)) ^ 2 +
        (size / 2 * Real.sin (2 * Real.pi * i / sides - Real.pi / 2)) ^ 2
        = (size / 2) ^ 2 := by
      have hpyth := Real.sin_sq_add_cos_sq (2 * Real.pi * i / sides - Real.pi / 2)
      calc (size / 2 * Real.cos (2 * Real.pi * i / sides - Real.pi / 2)) ^ 2 +
            (size / 2 * Real.sin (2 * Real.pi * i / sides - Real.pi / 2)) ^ 2
          = (size / 2) ^ 2 *
            (Real.sin (2 * Real.pi * i / sides - Real.pi / 2) ^ 2 +
             Real.cos (2 * Real.pi * i / sides - Real.pi / 2) ^ 2) := by ring
        _ = (size / 2) ^ 2 := by rw [hpyth, mul_one]
    rw [h3, Real.sqrt_sq (by positivity)]

/-- Witness for C8 (amended) at a concrete input: a triangle of size 2
around the origin. -/
theorem c8_regular_polygon_vertices_witness :
    (0 < 3) ∧
    ((regular_polygon (0, 0) 2 3).length = 3 ∧
      (∀ i (hi : i < 3),
        (regular_polygon ((0 : ℝ), (0 : ℝ)) 2 3).get
            ⟨i, by rw [regular_polygon_length]; exact hi⟩ =
          ((0 : ℝ) + 2 / 2 * Real.cos (2 * Real.pi * i / 3 - Real.pi / 2),
           (0 : ℝ) + 2 / 2 * Real.sin (2 * Real.pi * i / 3 - Real.pi / 2))) ∧
      ((0 : ℝ) ≤ 2 → ∀ p ∈ regular_polygon (0, 0) 2 3, ptDist p (0, 0) = 2 / 2)) :=
  ⟨by decide, c8_regular_polygon_vertices (0, 0) 2 3 (by decide)⟩

/-- The selection-relevant state of a `Canvas`: the `elements` and
`selected_elements` lists.  Python stores object references and compares
them by identity (`in`, `list.remove` on `QObject`s), so both lists are
modelled as lists of object identities. -/
structure SelState where
  elements : List ℕ
  selected_elements : List ℕ
deriving DecidableEq

/-- `Canvas.add_element`: appends the element to the element list. -/
def add_element (c : SelState) (e : ℕ) : SelState :=
  { c with elements := c.elements ++ [e] }

/-- `Canvas.remove_element`: removes the element from the element list when
present there and from the selection list when present there (Python
`list.remove`, which deletes the first matching entry), and never raises
because both removals are guarded by membership tests. -/
def remove_element (c : SelState) (e : ℕ) : SelState :=
  { elements := if e ∈ c.elements then c.elements.erase e else c.elements
    selected_elements :=
      if e ∈ c.selected_elements then c.selected_elements.erase e
      else c.selected_elements }

/-- `Canvas.clear_selection`: empties the selection list (the per-object
`selected` flags it also resets live on the objects, not in this state). -/
def clear_selection (c : SelState) : SelState :=
  { c with selected_elements := [] }

/-- `Canvas.select_element`: without `add_to_selection` first clears the
selection; then appends the element unless it is already selected. -/
def select_element (c : SelState) (e : ℕ) (add_to_selection : Bool) : SelState :=
  let c1 := if add_to_selection then c else clear_selection c
  if e ∈ c1.selected_elements then c1
  else { c1 with selected_elements := c1.selected_elements ++ [e] }

/-- The Delete branch of `Canvas.keyPressEvent`: iterates over a copy of
the selection list and removes each element. -/
def key_delete (c : SelState) : SelState :=
  c.selected_elements.foldl remove_element c

/-- A canvas operation of claim C2: `add_element`, `remove_element`,
`select_element`, `clear_selection`, or the Delete/Escape branches of
`keyPressEvent`. -/
inductive CanvasOp
  | addElement (e : ℕ)
  | removeElement (e : ℕ)
  | selectElement (e : ℕ) (addToSelection : Bool)
  | clearSelection
  | pressDelete
  | pressEscape
deriving DecidableEq

/-- Dispatch of a canvas operation to its source function (Escape clears
the selection). -/
def apply_op (c : SelState) : CanvasOp → SelState
  | .addElement e => add_element c e
  | .removeElement e => remove_element c e
  | .selectElement e add => select_element c e add
  | .clearSelection => clear_selection c
  | .pressDelete => key_delete c
  | .pressEscape => clear_selection c

/-- A sequence of canvas operations applied in order. -/
def run_ops (c : SelState) (ops : List CanvasOp) : SelState :=
  ops.foldl apply_op c

/-- The selection invariant of claim C2: every selected element is in the
element list. -/
def sel_invariant (c : SelState) : Prop :=
  ∀ e ∈ c.selected_elements, e ∈ c.elements

instance (c : SelState) : Decidable (sel_invariant c) :=
  List.decidableBAll (fun e => e ∈ c.elements) c.selected_elements

/-- A `select_element` call is valid when its argument is an element of the
canvas, as holds at every call site in the program (the argument always
comes from `get_element_at` or `get_elements_in_rect`); all other
operations are unconditionally valid. -/
def op_valid (c : SelState) (op : CanvasOp) : Bool :=
  match op with
  | .selectElement e _ => e ∈ c.elements
  | _ => true

/-- Validity of a whole operation sequence, each step checked in the state
it runs in. -/
def valid_seq (c : SelState) : List CanvasOp → Bool
  | [] => true
  | op :: ops => op_valid c op && valid_seq (apply_op c op) ops

/-- Counterexample to C2 as stated: `select_element` with an element that
is not on the canvas (possible for the method itself, never done by the
program) puts it into `selected_elements` without putting it into
`elements`, so the sequence consisting of that single operation breaks the
subset property. -/
theorem c2_counterexample_foreign_select :
    ¬ sel_invariant (run_ops ⟨[], []⟩ [CanvasOp.selectElement 0 false]) := by
  decide

/-- The inductive invariant: selection is a subset of the elements and has
no duplicates (`select_element` never appends an already-selected
element). -/
def sel_inv_strong (c : SelState) : Prop :=
  sel_invariant c ∧ c.selected_elements.Nodup

theorem remove_element_preserves (c : SelState) (x : ℕ)
    (h : sel_inv_strong c) : sel_inv_strong (remove_element c x) := by
  obtain ⟨hsub, hnd⟩ := h
  constructor
  · intro e he
    simp only [remove_element] at he ⊢
    split at he
    · have hex : e ∈ c.selected_elements := List.mem_of_mem_erase he
      have hne : e ≠ x := by
        intro hEq
        subst hEq
        exact (List.Nodup.not_mem_erase hnd) he
      have hmem : e ∈ c.elements := hsub e hex
      split
      · exact List.mem_erase_of_ne hne |>.2 hmem
      · exact hmem
    · have hmem : e ∈ c.elements := hsub e he
      have hne : e ≠ x := by
        intro hEq
        subst hEq
        exact absurd he (by assumption)
      split
      · exact List.mem_erase_of_ne hne |>.2 hmem
      · exact hmem
  · simp only [remove_element]
    split
    · exact hnd.erase x
    · exact hnd

theorem key_delete_preserves_aux (xs : List ℕ) (c : SelState)
    (h : sel_inv_strong c) : sel_inv_strong (xs.foldl remove_element c) := by
  induction xs generalizing c with
  | nil => exact h
  | cons x xs ih => exact ih _ (remove_element_preserves c x h)

theorem apply_op_preserves (c : SelState) (op : CanvasOp)
    (hv : op_valid c op = true) (h : sel_inv_strong c) :
    sel_inv_strong (apply_op c op) := by
  obtain ⟨hsub, hnd⟩ := h
  cases op with
  | addElement e =>
    refine ⟨fun x hx => ?_, hnd⟩
    simp only [apply_op, add_element, List.mem_append]
    exact Or.inl (hsub x hx)
  | removeElement e => exact remove_element_preserves c e ⟨hsub, hnd⟩
  | selectElement e add =>
    simp only [op_valid, decide_eq_true_eq] at hv
    simp only [apply_op, select_element]
    cases add with
    | false =>
      simp only [clear_selection, Bool.false_eq_true, if_false, List.not_mem_nil,
        if_neg (fun h => h), List.nil_append]
      constructor
      · intro x hx
        simp only [List.mem_singleton] at hx
        subst hx
        exact hv
      · exact List.nodup_singleton e
    | true =>
      simp only [if_true]
      split
      · exact ⟨hsub, hnd⟩
      · constructor
        · intro x hx
          rcases List.mem_append.1 hx with hx | hx
          · exact hsub x hx
          · simp only [List.mem_singleton] at hx
            subst hx
            exact hv
        · refine List.Nodup.append hnd (List.nodup_singleton e) ?_
          intro a ha hb
          simp only [List.mem_singleton] at hb
          subst hb
          exact absurd ha (by assumption)
  | clearSelection =>
    exact ⟨fun x hx => absurd hx (List.not_mem_nil x), List.nodup_nil⟩
  | pressDelete => exact key_delete_preserves_aux _ c ⟨hsub, hnd⟩
  | pressEscape =>
    exact ⟨fun x hx => absurd hx (List.not_mem_nil x), List.nodup_nil⟩

theorem run_ops_preserves (ops : List CanvasOp) (c : SelState)
    (hv : valid_seq c ops = true) (h : sel_inv_strong c) :
    sel_inv_strong (run_ops c ops) := by
  induction ops generalizing c with
  | nil => exact h
  | cons op ops ih =>
    simp only [valid_seq, Bool.and_eq_true] at hv
    exact ih (apply_op c op) hv.2 (apply_op_preserves c op hv.1 h)

/-- Claim C2 (amended): starting from a freshly constructed canvas, after
every sequence of canvas operations in which each `select_element` call's
argument is an element of the canvas at the time of the call (as holds at
every call site of the program), every element of `selected_elements` is
also in `elements`. -/
theorem c2_selection_subset (ops : List CanvasOp)
    (hv : valid_seq ⟨[], []⟩ ops = true) :
    sel_invariant (run_ops ⟨[], []⟩ ops) :=
  (run_ops_preserves ops ⟨[], []⟩ hv
    ⟨fun x hx => absurd hx (List.not_mem_nil x), List.nodup_nil⟩).1

/-- Witness for C2 (amended): a concrete valid operation sequence that
adds, selects, deletes and re-selects. -/
theorem c2_selection_subset_witness :
    sel_invariant (run_ops ⟨[], []⟩
      [CanvasOp.addElement 1, CanvasOp.addElement 2,
       CanvasOp.selectElement 1 false, CanvasOp.pressDelete,
       CanvasOp.selectElement 2 false, CanvasOp.pressEscape,
       CanvasOp.selectElement 2 true, CanvasOp.removeElement 7]) :=
  c2_selection_subset
    [CanvasOp.addElement 1, CanvasOp.addElement 2,
     CanvasOp.selectElement 1 false, CanvasOp.pressDelete,
     CanvasOp.selectElement 2 false, CanvasOp.pressEscape,
     CanvasOp.selectElement 2 true, CanvasOp.removeElement 7]
    (by decide)

/-- Counterexample to the second half of C10 as stated: `remove_element`
deletes only the first matching entry (Python `list.remove`), so on a
canvas whose element list holds the same element twice — reachable by
calling `add_element` twice with one element — the element is still
present afterwards. -/
theorem c10_counterexample_duplicate :
    run_ops ⟨[], []⟩ [CanvasOp.addElement 0, CanvasOp.addElement 0]
        = ⟨[0, 0], []⟩ ∧
    (remove_element ⟨[0, 0], []⟩ 0).elements = [0] ∧
    0 ∈ (remove_element ⟨[0, 0], []⟩ 0).elements := by
  decide

/-- Claim C10 (amended): `remove_element` is total (never raises thanks to
its membership guards); with an absent element it leaves both lists
unchanged; it always removes the first occurrence from each list; and
whenever a list holds the element at most once — true of every state the
program reaches, since each created element object is appended once — the
element is gone from that list afterwards. -/
theorem c10_remove_element_safe (c : SelState) (e : ℕ) :
    (e ∉ c.elements → (remove_element c e).elements = c.elements) ∧
    (e ∉ c.selected_elements →
      (remove_element c e).selected_elements = c.selected_elements) ∧
    ((remove_element c e).elements = c.elements.erase e ∧
      (remove_element c e).selected_elements = c.selected_elements.erase e) ∧
    (c.elements.Nodup → e ∉ (remove_element c e).elements) ∧
    (c.selected_elements.Nodup → e ∉ (remove_element c e).selected_elements) := by
  refine ⟨?_, ?_, ⟨?_, ?_⟩, ?_, ?_⟩
  · intro h
    simp only [remove_element, if_neg h]
  · intro h
    simp only [remove_element, if_neg h]
  · simp only [remove_element]
    split
    · rfl
    · exact (List.erase_of_not_mem (by assumption)).symm
  · simp only [remove_element]
    split
    · rfl
    · exact (List.erase_of_not_mem (by assumption)).symm
  · intro hnd
    simp only [remove_element]
    split
    · exact hnd.not_mem_erase
    · assumption
  · intro hnd
    simp only [remove_element]
    split
    · exact hnd.not_mem_erase
    · assumption

/-- Witness for C10 (amended) at a concrete input: removing an absent
element leaves the lists unchanged, removing a present one deletes it. -/
theorem c10_remove_element_safe_witness :
    ((remove_element ⟨[1, 2], [2]⟩ 3).elements = [1, 2] ∧
      (remove_element ⟨[1, 2], [2]⟩ 3).selected_elements = [2]) ∧
    (2 ∉ (remove_element ⟨[1, 2], [2]⟩ 2).elements ∧
      2 ∉ (remove_element ⟨[1, 2], [2]⟩ 2).selected_elements) :=
  ⟨⟨(c10_remove_element_safe ⟨[1, 2], [2]⟩ 3).1 (by decide),
    (c10_remove_element_safe ⟨[1, 2], [2]⟩ 3).2.1 (by decide)⟩,
   ⟨(c10_remove_element_safe ⟨[1, 2], [2]⟩ 2).2.2.2.1 (by decide),
    (c10_remove_element_safe ⟨[1, 2], [2]⟩ 2).2.2.2.2 (by decide)⟩⟩

/-- The drawing tools of the toolbar (`MainWindow.current_tool` values). -/
inductive Tool
  | select
  | point
  | line
  | straight
  | arrow
  | triangle
  | rect
  | circle
  | pentagon
  | hexagon
  | text
  | button
  | input
  | menu
  | icon
  | image
  | link
deriving DecidableEq

/-- Mouse buttons relevant to the event handlers. -/
inductive MouseButton
  | left
  | right
  | middle
deriving DecidableEq

/-- The mouse-interaction state of a `Canvas`.  Python holds object
references that several lists share and mutates them in place, so the
model keeps an object store (`objects`, one slot per allocated
`CanvasElement`, its index serving as the object's identity) while
`elements`, `selected_elements` and `current_element` hold identities. -/
structure CanvasDraw where
  objects : List CanvasElement
  elements : List ℕ
  selected_elements : List ℕ
  drawing : Bool
  current_element : Option ℕ
  start_point : Option (ℚ × ℚ)
  current_points : List (ℚ × ℚ)
  selection_start : Option (ℚ × ℚ)
  selection_rect : Option RectF
  dragging : Bool
  drag_start : Option (ℚ × ℚ)
deriving DecidableEq

/-- `Canvas.__init__`: empty lists, no draw/selection state in progress. -/
def init_canvas_draw : CanvasDraw :=
  { objects := []
    elements := []
    selected_elements := []
    drawing := false
    current_element := none
    start_point := none
    current_points := []
    selection_start := none
    selection_rect := none
    dragging := false
    drag_start := none }

/-- Dereference an object identity in the store (identities handed out by
`canvas_alloc` are always in range, so the default is never reached). -/
def getObj (c : CanvasDraw) (i : ℕ) : CanvasElement :=
  c.objects.getD i (mkElement ElementType.POINT (0, 0))

/-- In-place mutation `element.selected = b` through the store. -/
def setSelectedFlag (c : CanvasDraw) (i : ℕ) (b : Bool) : CanvasDraw :=
  { c with objects := c.objects.set i { getObj c i with selected := b } }

/-- Allocation of a fresh `CanvasElement(...)` object: appends it to the
store and returns its identity. -/
def canvas_alloc (c : CanvasDraw) (e : CanvasElement) : CanvasDraw × ℕ :=
  ({ c with objects := c.objects ++ [e] }, c.objects.length)

/-- `Canvas.add_element` on the store model: appends the element(identity)
to the element list (the signal hookup and repaint are GUI-only). -/
def canvas_add_element (c : CanvasDraw) (i : ℕ) : CanvasDraw :=
  { c with elements := c.elements ++ [i] }

/-- Creation followed by `add_element`, the common pattern of the
single-click tools. -/
def canvas_new_element (c : CanvasDraw) (e : CanvasElement) : CanvasDraw :=
  let ci := canvas_alloc c e
  canvas_add_element ci.1 ci.2

/-- `Canvas.clear_selection` on the store model: resets every selected
object's flag and empties the selection list. -/
def canvas_clear_selection (c : CanvasDraw) : CanvasDraw :=
  let c1 := c.selected_elements.foldl (fun acc i => setSelectedFlag acc i false) c
  { c1 with selected_elements := [] }

/-- `Canvas.select_element` on the store model. -/
def canvas_select_element (c : CanvasDraw) (i : ℕ) (add_to_selection : Bool) :
    CanvasDraw :=
  let c1 := if add_to_selection then c else canvas_clear_selection c
  if i ∈ c1.selected_elements then c1
  else
    let c2 := { c1 with selected_elements := c1.selected_elements ++ [i] }
    setSelectedFlag c2 i true

/-- `Canvas.get_element_at` on the store model. -/
def canvas_get_element_at (c : CanvasDraw) (p : ℚ × ℚ) : Option ℕ :=
  c.elements.reverse.find? (fun i => (getObj c i).contains_point p)

/-- `Canvas.get_elements_in_rect` on the store model. -/
def canvas_elements_in_rect (c : CanvasDraw) (r : RectF) : List ℕ :=
  c.elements.filter (fun i => r.intersects (getObj c i).get_bounds)

/-- `element.data.get('animate', True)` of the link-click check. -/
def data_animate (d : ElemData) : Bool :=
  match dataGet d ("animate") with
  | some (DValue.flag b) => b
  | _ => true

/-- Whether the first block of `Canvas.mousePressEvent` returns early: a
left press hit an element of type LINK. -/
def link_hit (c : CanvasDraw) (pos : ℚ × ℚ) : Bool :=
  match canvas_get_element_at c pos with
  | some i => decide ((getObj c i).element_type = ElementType.LINK)
  | none => false

/-- The navigation request the early-return block emits: the target canvas
id (a truthy, i.e. nonempty, string under `data['target_canvas']`) and the
animation flag, handed to `MainWindow.navigate_to_canvas`. -/
def nav_request (c : CanvasDraw) (pos : ℚ × ℚ) : Option (String × Bool) :=
  match canvas_get_element_at c pos with
  | some i =>
    match dataGet (getObj c i).data ("target_canvas") with
    | some (DValue.str s) =>
      if s ≠ "" then some (s, data_animate (getObj c i).data) else none
    | _ => none
  | none => none

/-- The select-tool branch of a left `mousePressEvent`: select-and-drag on
a hit, otherwise clear the selection and open a rubber-band rectangle. -/
def press_left_select (c : CanvasDraw) (pos : ℚ × ℚ) (ctrl : Bool) : CanvasDraw :=
  match canvas_get_element_at c pos with
  | some i =>
    let c1 := canvas_select_element c i ctrl
    { c1 with dragging := true, drag_start := some pos }
  | none =>
    let c1 := canvas_clear_selection c
    { c1 with selection_start := some pos, selection_rect := some ⟨pos.1, pos.2, 0, 0⟩ }

/-- The drawing branch of a left `mousePressEvent`: records the start
point, raises the drawing flag and seeds `current_points`, then dispatches
on the tool.  `point`, `text` and `button` create and add their element
immediately; `straight`, `arrow`, `triangle`, `rect`, `circle`, `pentagon`
and `hexagon` allocate the element into `current_element` (added only on
release); `line` just collects points.  The `input`, `menu`, `icon`,
`image` and `link` tools have no branch here (in the source their `elif`s
sit one level out, on the non-left-button path), so for them only the
common preamble runs. -/
def press_left_draw (c : CanvasDraw) (tool : Tool) (pos : ℚ × ℚ) : CanvasDraw :=
  let c1 := { c with start_point := some pos, drawing := true, current_points := [pos] }
  match tool with
  | Tool.point =>
    let e := { mkElement ElementType.POINT pos with
      size := (5, 5), data := [("radius", DValue.num 5)] }
    { canvas_new_element c1 e with drawing := false }
  | Tool.line => c1
  | Tool.straight =>
    let ci := canvas_alloc c1
      { mkElement ElementType.STRAIGHT pos with data := [("end", DValue.pt pos)] }
    { ci.1 with current_element := some ci.2 }
  | Tool.arrow =>
    let ci := canvas_alloc c1
      { mkElement ElementType.ARROW pos with data := [("end", DValue.pt pos)] }
    { ci.1 with current_element := some ci.2 }
  | Tool.triangle =>
    let ci := canvas_alloc c1
      { mkElement ElementType.TRIANGLE pos with data := [("end", DValue.pt pos)] }
    { ci.1 with current_element := some ci.2 }
  | Tool.rect =>
    let ci := canvas_alloc c1
      { mkElement ElementType.RECT pos with data := [("end", DValue.pt pos)] }
    { ci.1 with current_element := some ci.2 }
  | Tool.circle =>
    let ci := canvas_alloc c1
      { mkElement ElementType.CIRCLE pos with data := [("end", DValue.pt pos)] }
    { ci.1 with current_element := some ci.2 }
  | Tool.pentagon =>
    let ci := canvas_alloc c1
      { mkElement ElementType.PENTAGON pos with data := [("end", DValue.pt pos)] }
    { ci.1 with current_element := some ci.2 }
  | Tool.hexagon =>
    let ci := canvas_alloc c1
      { mkElement ElementType.HEXAGON pos with data := [("end", DValue.pt pos)] }
    { ci.1 with current_element := some ci.2 }
  | Tool.text =>
    let e := { mkElement ElementType.TEXT pos with
      data := [("text", DValue.str "Текст"),
               ("font_family", DValue.str "Arial"),
               ("font_size", DValue.num 12),
               ("alignment", DValue.align QtAlign.alignLeft),
               ("color", DValue.str "#000000")] }
    { canvas_new_element c1 e with drawing := false }
  | Tool.button =>
    let e := { mkElement ElementType.BUTTON pos with
      data := [("text", DValue.str "Кнопка"),
               ("width", DValue.num 100), ("height", DValue.num 30)],
      size := (100, 30) }
    { canvas_new_element c1 e with drawing := false }
  | _ => c1

/-- `Canvas.mousePressEvent`: the link early-return check, then the
left-button select/draw dispatch; the `input`/`menu`/`icon` `elif` chain of
the source is attached to the left-button test, so it runs only for
non-left buttons; `image` and `link` pass.  The right-button context menu
only opens an interactive menu, so it changes no canvas state here.
Returns the new state and any navigation request. -/
def mousePressEvent (c : CanvasDraw) (tool : Tool) (btn : MouseButton)
    (pos : ℚ × ℚ) (ctrl : Bool) : CanvasDraw × Option (String × Bool) :=
  if btn = MouseButton.left ∧ link_hit c pos then
    (c, nav_request c pos)
  else if btn = MouseButton.left then
    (if tool = Tool.select then press_left_select c pos ctrl
     else press_left_draw c tool pos, none)
  else if tool = Tool.input then
    ({ canvas_new_element c
        { mkElement ElementType.INPUT pos with
          data := [("placeholder", DValue.str "Введите текст"),
                   ("width", DValue.num 150), ("height", DValue.num 25)],
          size := (150, 25) } with drawing := false }, none)
  else if tool = Tool.menu then
    ({ canvas_new_element c
        { mkElement ElementType.MENU pos with
          data := [("items", DValue.strs ["Пункт 1", "Пункт 2", "Пункт 3"]),
                   ("width", DValue.num 120), ("height", DValue.num 25)],
          size := (120, 25) } with drawing := false }, none)
  else if tool = Tool.icon then
    ({ canvas_new_element c
        { mkElement ElementType.ICON pos with
          data := [("icon_type", DValue.str "default"),
                   ("size", DValue.num 32)],
          size := (32, 32) } with drawing := false }, none)
  else (c, none)

/-- `Canvas.mouseReleaseEvent` for a left release: finish a rubber-band
selection, or end a drag, or finalize the drawing in progress (a curve of
more than one point becomes a LINE element with recomputed bounds, an
allocated `current_element` is added to the element list); any other
button leaves the state alone. -/
def mouseReleaseEvent (c : CanvasDraw) (tool : Tool) (btn : MouseButton) :
    CanvasDraw :=
  if btn = MouseButton.left then
    if tool = Tool.select ∧ c.selection_start.isSome then
      let c1 := match c.selection_rect with
        | some r => (canvas_elements_in_rect c r).foldl
            (fun acc i => canvas_select_element acc i true) c
        | none => c
      { c1 with selection_start := none, selection_rect := none }
    else if tool = Tool.select then
      { c with dragging := false, drag_start := none }
    else if c.drawing then
      let c1 :=
        if tool = Tool.line ∧ 1 < c.current_points.length then
          let xs := c.current_points.map Prod.fst
          let ys := c.current_points.map Prod.snd
          let e := { mkElement ElementType.LINE (c.current_points.headD (0, 0)) with
            data := [("points", DValue.pts c.current_points)],
            position := (qminimum xs, qminimum ys),
            size := (qmaximum xs - qminimum xs, qmaximum ys - qminimum ys) }
          { canvas_new_element c e with current_points := [] }
        else
          match c.current_element with
          | some i => { canvas_add_element c i with current_element := none }
          | none => c
      { c1 with drawing := false }
    else c
  else c

/-- Claim C1 fails for the `input`, `menu` and `icon` tools: because their
`elif` branches are chained to the `if event.button() == Qt.LeftButton:`
test, a left press with one of these tools only runs the drawing preamble
and creates nothing, and the following release adds nothing, while the
same press with a non-left button does create the element.  The last
conjunct shows the claimed lifecycle working for the `rect` tool: the left
press allocates the element into `current_element` without adding it, and
the release appends it to the element list. -/
theorem c1_input_menu_icon_not_created_on_left_press :
    ((mouseReleaseEvent
        (mousePressEvent init_canvas_draw Tool.input MouseButton.left
          (10, 10) false).1 Tool.input MouseButton.left).elements = [] ∧
      (mouseReleaseEvent
        (mousePressEvent init_canvas_draw Tool.input MouseButton.left
          (10, 10) false).1 Tool.input MouseButton.left).objects = [] ∧
      (mousePressEvent init_canvas_draw Tool.input MouseButton.left
          (10, 10) false).2 = none) ∧
    ((mouseReleaseEvent
        (mousePressEvent init_canvas_draw Tool.menu MouseButton.left
          (10, 10) false).1 Tool.menu MouseButton.left).elements = [] ∧
      (mouseReleaseEvent
        (mousePressEvent init_canvas_draw Tool.icon MouseButton.left
          (10, 10) false).1 Tool.icon MouseButton.left).elements = []) ∧
    ((mousePressEvent init_canvas_draw Tool.input MouseButton.right
        (10, 10) false).1.elements.map
      (fun i => (getObj (mousePressEvent init_canvas_draw Tool.input
        MouseButton.right (10, 10) false).1 i).element_type)
      = [ElementType.INPUT]) ∧
    ((mousePressEvent init_canvas_draw Tool.rect MouseButton.left
        (0, 0) false).1.elements = [] ∧
      (mousePressEvent init_canvas_draw Tool.rect MouseButton.left
        (0, 0) false).1.current_element = some 0 ∧
      (mouseReleaseEvent
        (mousePressEvent init_canvas_draw Tool.rect MouseButton.left
          (0, 0) false).1 Tool.rect MouseButton.left).elements = [0] ∧
      (getObj (mouseReleaseEvent
        (mousePressEvent init_canvas_draw Tool.rect MouseButton.left
          (0, 0) false).1 Tool.rect MouseButton.left) 0).element_type
        = ElementType.RECT) := by
  decide
